import Mathlib

/-!
Verification of the LSP protocol engine of `app/tool/pylsp.py`
(`LSPClientSession` and `PythonLSPTool`).

The embedding is a shallow one:

* Python strings and byte buffers are `List Char` (the frames produced by
  `json.dumps(..., ensure_ascii default)` are pure ASCII, so one `Char` is
  one wire byte).
* JSON values (`json.dumps` / `json.loads`) are the inductive type `Json`
  below, with a serializer `jdump` following CPython's `json.dumps` default
  format (separators `", "` / `": "`, `ensure_ascii` escaping) and a
  recursive-descent reader `jparse` following `json.loads` (whitespace
  skipping, escape decoding including surrogate pairs).  Floats are not
  modelled: the program only ever serializes `None`, booleans, strings and
  ints.
* The socket is modelled by a `Wire`: the list of frames written so far
  (`sent`, oldest first) plus the bytes that arrive within the polling
  window (`inp`).  The `select`-based poll loop of `_wait_for` terminates
  when no further decodable data is available, which models the "no data
  before the timeout elapses" outcome as exhaustion of `inp`.
* Python exceptions are explicit `Option PyErr` results; `str(e)` is
  `pyErrMsg`.
-/

set_option maxRecDepth 8000

namespace PyLSP

/-! ### Small character / numeral utilities -/

/-- JSON whitespace, as accepted by `json.loads`: space, tab, newline,
carriage return. -/
def isJsonWs (c : Char) : Bool :=
  c.toNat = 32 || c.toNat = 9 || c.toNat = 10 || c.toNat = 13

/-- Drop leading JSON whitespace. -/
def skipWs : List Char → List Char
  | [] => []
  | c :: s => if isJsonWs c then skipWs s else c :: s

/-- Python `str.strip()`: remove whitespace from both ends. -/
def pstrip (s : List Char) : List Char :=
  ((s.dropWhile isJsonWs).reverse.dropWhile isJsonWs).reverse

/-- Digits of `n`, most significant first; `fuel` bounds the recursion
(any `fuel > n` gives the digits of `n`). -/
def natDigitsGo : Nat → Nat → List Char
  | 0, _ => []
  | fuel + 1, n =>
    if n < 10 then [Char.ofNat (48 + n)]
    else natDigitsGo fuel (n / 10) ++ [Char.ofNat (48 + n % 10)]

/-- The decimal digits of `n`, most significant first (Python `str(n)` for
a nonnegative int). -/
def natDigits (n : Nat) : List Char := natDigitsGo (n + 1) n

/-- Python `str(n)` for an int (possibly negative). -/
def intDigits (n : Int) : List Char :=
  if n < 0 then '-' :: natDigits (-n).toNat else natDigits n.toNat

/-- Greedily read decimal digits, accumulating into `acc`. -/
def readDigits (acc : Nat) : List Char → Nat × List Char
  | [] => (acc, [])
  | c :: s =>
    if c.isDigit then readDigits (acc * 10 + (c.toNat - 48)) s else (acc, c :: s)

/-- Read a nonempty run of decimal digits; `none` if the input does not
start with a digit. -/
def readNat (s : List Char) : Option (Nat × List Char) :=
  match s with
  | c :: _ => if c.isDigit then some (readDigits 0 s) else none
  | [] => none

/-- Lowercase hexadecimal digit (as produced by CPython's `'\\u%04x'`
escape formatting). -/
def hexDig (n : Nat) : Char :=
  if n < 10 then Char.ofNat (48 + n) else Char.ofNat (87 + n)

/-- Four-digit lowercase hex rendering of `n < 0x10000`. -/
def hex4 (n : Nat) : List Char :=
  [hexDig (n / 4096 % 16), hexDig (n / 256 % 16), hexDig (n / 16 % 16), hexDig (n % 16)]

/-- Value of one hex digit (either case, as accepted by `json.loads`). -/
def hexVal (c : Char) : Option Nat :=
  if '0' ≤ c ∧ c ≤ '9' then some (c.toNat - 48)
  else if 'a' ≤ c ∧ c ≤ 'f' then some (c.toNat - 87)
  else if 'A' ≤ c ∧ c ≤ 'F' then some (c.toNat - 55)
  else none

/-- Read exactly four hex digits. -/
def readHex4 (s : List Char) : Option (Nat × List Char) :=
  match s with
  | a :: b :: c :: d :: rest =>
    match hexVal a, hexVal b, hexVal c, hexVal d with
    | some va, some vb, some vc, some vd =>
      some (((va * 16 + vb) * 16 + vc) * 16 + vd, rest)
    | _, _, _, _ => none
  | _ => none

/-- Expect the literal characters `lit` at the head of `s`. -/
def expectChars (lit s : List Char) : Option (List Char) :=
  if s.take lit.length = lit then some (s.drop lit.length) else none

/-! ### The JSON data model (`json.dumps` / `json.loads`) -/

/-- JSON values as used by the program: `None`, `bool`, `int`, `str`,
`list`, `dict` (insertion-ordered association list, as Python dicts are). -/
inductive Json where
  | null : Json
  | bool (b : Bool) : Json
  | num (n : Int) : Json
  | str (s : List Char) : Json
  | arr (xs : List Json) : Json
  | obj (kvs : List (List Char × Json)) : Json

/-- Python `type(x).__name__` for the values `Json` can denote. -/
def pyTypeName : Json → List Char
  | .null => "NoneType".data
  | .bool _ => "bool".data
  | .num _ => "int".data
  | .str _ => "str".data
  | .arr _ => "list".data
  | .obj _ => "dict".data

/-- `dict` membership test / lookup: Python `d.get(k)` for a `Json.obj`.
First binding wins, as in a Python dict (which cannot hold duplicates). -/
def jlookup (kvs : List (List Char × Json)) (k : List Char) : Option Json :=
  match kvs with
  | [] => none
  | (k', v) :: rest => if k' = k then some v else jlookup rest k

/-- Is this value a Python `dict`? -/
def Json.isObj : Json → Bool
  | .obj _ => true
  | _ => false

/-- `message.get(key)` where `message` came from `json.loads`: succeeds
only on a dict, otherwise the Python code raises `AttributeError`.  Here
the non-dict case is handled at each use site. -/
def Json.get? : Json → List Char → Option Json
  | .obj kvs, k => jlookup kvs k
  | _, _ => none

/-- The `ensure_ascii` escape of one character, following CPython's
`json.encoder.py_encode_basestring_ascii`. -/
def escChar (c : Char) : List Char :=
  if c = '"' then ['\\', '"']
  else if c = '\\' then ['\\', '\\']
  else if c = '\n' then ['\\', 'n']
  else if c = '\r' then ['\\', 'r']
  else if c = '\t' then ['\\', 't']
  else if c = Char.ofNat 8 then ['\\', 'b']
  else if c = Char.ofNat 12 then ['\\', 'f']
  else if c.toNat < 0x20 then '\\' :: 'u' :: hex4 c.toNat
  else if c.toNat ≤ 0x7E then [c]
  else if c.toNat < 0x10000 then '\\' :: 'u' :: hex4 c.toNat
  else
    let v := c.toNat - 0x10000
    ('\\' :: 'u' :: hex4 (0xD800 + v / 0x400)) ++ ('\\' :: 'u' :: hex4 (0xDC00 + v % 0x400))

/-- Escape a whole string body. -/
def escString (s : List Char) : List Char := (s.map escChar).flatten

mutual

/-- `json.dumps` with default arguments: separators `", "` and `": "`,
`ensure_ascii=True`.  The program builds every outgoing frame body with
exactly this call. -/
def jdump : Json → List Char
  | .null => "null".data
  | .bool true => "true".data
  | .bool false => "false".data
  | .num n => intDigits n
  | .str s => '"' :: (escString s ++ ['"'])
  | .arr [] => "[]".data
  | .arr (x :: xs) => '[' :: (jdump x ++ jdumpArrRest xs)
  | .obj [] => "{}".data
  | .obj (kv :: kvs) => '{' :: (jdumpKV kv ++ jdumpObjRest kvs)

/-- Remaining array items: `", "` before each, then the closing `]`. -/
def jdumpArrRest : List Json → List Char
  | [] => [']']
  | x :: xs => ',' :: ' ' :: (jdump x ++ jdumpArrRest xs)

/-- One `"key": value` pair. -/
def jdumpKV : List Char × Json → List Char
  | (k, v) => '"' :: (escString k ++ ('"' :: ':' :: ' ' :: jdump v))

/-- Remaining object items: `", "` before each, then the closing `}`. -/
def jdumpObjRest : List (List Char × Json) → List Char
  | [] => ['}']
  | kv :: kvs => ',' :: ' ' :: (jdumpKV kv ++ jdumpObjRest kvs)

end

/-! ### The JSON reader (`json.loads`) -/

/-- Read the body of a string literal (after the opening `"`), decoding
escapes as CPython's `json.decoder.py_scanstring` does (strict mode:
unescaped control characters are rejected; `\uXXXX` escapes, with
surrogate-pair recombination).  A decoded lone surrogate cannot be
represented by `Char` and is rejected here; it never arises from data the
program itself encodes.  `fuel` bounds the recursion; one unit is spent
per decoded character. -/
def readStrBody (fuel : Nat) (s : List Char) : Option (List Char × List Char) :=
  match fuel with
  | 0 => none
  | fuel + 1 =>
    match s with
    | [] => none
    | c :: r =>
      if c = '"' then some ([], r)
      else if c = '\\' then
        match r with
        | [] => none
        | e :: r' =>
          if e = '"' then (readStrBody fuel r').map (fun p => ('"' :: p.1, p.2))
          else if e = '\\' then (readStrBody fuel r').map (fun p => ('\\' :: p.1, p.2))
          else if e = '/' then (readStrBody fuel r').map (fun p => ('/' :: p.1, p.2))
          else if e = 'b' then (readStrBody fuel r').map (fun p => (Char.ofNat 8 :: p.1, p.2))
          else if e = 'f' then (readStrBody fuel r').map (fun p => (Char.ofNat 12 :: p.1, p.2))
          else if e = 'n' then (readStrBody fuel r').map (fun p => ('\n' :: p.1, p.2))
          else if e = 'r' then (readStrBody fuel r').map (fun p => ('\r' :: p.1, p.2))
          else if e = 't' then (readStrBody fuel r').map (fun p => ('\t' :: p.1, p.2))
          else if e = 'u' then
            match readHex4 r' with
            | none => none
            | some (n, r'') =>
              if 0xD800 ≤ n ∧ n < 0xDC00 then
                match r'' with
                | '\\' :: 'u' :: r3 =>
                  match readHex4 r3 with
                  | none => none
                  | some (m, r4) =>
                    if 0xDC00 ≤ m ∧ m < 0xE000 then
                      (readStrBody fuel r4).map
                        (fun p => (Char.ofNat (0x10000 + (n - 0xD800) * 0x400 + (m - 0xDC00)) :: p.1, p.2))
                    else none
                | _ => none
              else if 0xDC00 ≤ n ∧ n < 0xE000 then none
              else (readStrBody fuel r'').map (fun p => (Char.ofNat n :: p.1, p.2))
          else none
      else if c.toNat < 0x20 then none
      else (readStrBody fuel r).map (fun p => (c :: p.1, p.2))

mutual

/-- One JSON value, recursive descent as in `json.loads` (leading
whitespace skipped; literals `null`/`true`/`false`; string; array; object;
integer).  Floats are not modelled (the program never produces or consumes
them).  `fuel` bounds the recursion. -/
def jparse (fuel : Nat) (s : List Char) : Option (Json × List Char) :=
  match fuel with
  | 0 => none
  | fuel + 1 =>
    match skipWs s with
    | [] => none
    | c :: r =>
      if c = 'n' then (expectChars "ull".data r).map (fun r' => (Json.null, r'))
      else if c = 't' then (expectChars "rue".data r).map (fun r' => (Json.bool true, r'))
      else if c = 'f' then (expectChars "alse".data r).map (fun r' => (Json.bool false, r'))
      else if c = '"' then
        (readStrBody fuel r).map (fun p => (Json.str p.1, p.2))
      else if c = '[' then jparseArr fuel r
      else if c = '{' then jparseObj fuel r
      else if c = '-' then
        match readNat r with
        | some (n, r') => some (Json.num (-(n : Int)), r')
        | none => none
      else if c.isDigit then
        match readNat (c :: r) with
        | some (n, r') => some (Json.num (n : Int), r')
        | none => none
      else none

/-- Array items, just after the opening `[`. -/
def jparseArr (fuel : Nat) (s : List Char) : Option (Json × List Char) :=
  match fuel with
  | 0 => none
  | fuel + 1 =>
    match skipWs s with
    | [] => none
    | c :: r =>
      if c = ']' then some (Json.arr [], r)
      else
        match jparse fuel (c :: r) with
        | none => none
        | some (v, r') =>
          match jparseArrRest fuel r' with
          | none => none
          | some (vs, r'') => some (Json.arr (v :: vs), r'')

/-- Array continuation: `,` then another item, or the closing `]`. -/
def jparseArrRest (fuel : Nat) (s : List Char) : Option (List Json × List Char) :=
  match fuel with
  | 0 => none
  | fuel + 1 =>
    match skipWs s with
    | [] => none
    | c :: r =>
      if c = ']' then some ([], r)
      else if c = ',' then
        match jparse fuel r with
        | none => none
        | some (v, r') =>
          match jparseArrRest fuel r' with
          | none => none
          | some (vs, r'') => some (v :: vs, r'')
      else none

/-- Object members, just after the opening `{`. -/
def jparseObj (fuel : Nat) (s : List Char) : Option (Json × List Char) :=
  match fuel with
  | 0 => none
  | fuel + 1 =>
    match skipWs s with
    | [] => none
    | c :: r =>
      if c = '}' then some (Json.obj [], r)
      else if c = '"' then
        match readStrBody fuel r with
        | none => none
        | some (k, r') =>
          match skipWs r' with
          | [] => none
          | c' :: r'' =>
            if c' = ':' then
              match jparse fuel r'' with
              | none => none
              | some (v, r3) =>
                match jparseObjRest fuel r3 with
                | none => none
                | some (kvs, r4) => some (Json.obj ((k, v) :: kvs), r4)
            else none
      else none

/-- Object continuation: `,` then another member, or the closing `}`. -/
def jparseObjRest (fuel : Nat) (s : List Char) : Option (List (List Char × Json) × List Char) :=
  match fuel with
  | 0 => none
  | fuel + 1 =>
    match skipWs s with
    | [] => none
    | c :: r =>
      if c = '}' then some ([], r)
      else if c = ',' then
        match skipWs r with
        | [] => none
        | c' :: r' =>
          if c' = '"' then
            match readStrBody fuel r' with
            | none => none
            | some (k, r'') =>
              match skipWs r'' with
              | [] => none
              | c'' :: r3 =>
                if c'' = ':' then
                  match jparse fuel r3 with
                  | none => none
                  | some (v, r4) =>
                    match jparseObjRest fuel r4 with
                    | none => none
                    | some (kvs, r5) => some ((k, v) :: kvs, r5)
                else none
          else none
      else none

end

/-- `json.loads`: one JSON document, with only whitespace around it.
`fuel` is chosen from the input length; each recursive call consumes at
least one input character, so this always suffices. -/
def jsonLoads (s : List Char) : Option Json :=
  match jparse (s.length + 1) s with
  | some (v, rest) => if skipWs rest = [] then some v else none
  | none => none

/-! ### Framing codec

`LSPClientSession._send` produces `"Content-Length: <n>\r\n\r\n" + body`;
the receive side of `LSPClientSession._wait_for` accumulates header bytes
until the buffer ends with `"\r\n\r\n"`, splits the decoded header text on
`"\r\n"`, takes `key: value` lines, reads `Content-Length` (defaulting to
`0`), reads that many body bytes and `json.loads`s them. -/

/-- The JSON-RPC payload dict built by `_send`: `jsonrpc`/`method`/`params`
always, plus `id` only when one was passed (`if id is not None`). -/
def sendPayload (method : List Char) (params : Json) (id : Option Int) : Json :=
  Json.obj
    ([("jsonrpc".data, Json.str "2.0".data),
      ("method".data, Json.str method),
      ("params".data, params)] ++
     (match id with
      | some i => [("id".data, Json.num i)]
      | none => []))

/-- `"Content-Length: "`, the header prefix `_send` writes. -/
def clHeaderLit : List Char := "Content-Length: ".data

/-- Encode one frame exactly as `_send` does: serialized body preceded by
a `Content-Length` header (`len(body)`; the body is ASCII, so character
count equals byte count). -/
def encodeFrameOfBody (body : List Char) : List Char :=
  clHeaderLit ++ natDigits body.length ++ "\r\n\r\n".data ++ body

/-- The wire bytes `_send` writes for a message. -/
def encodeMsg (method : List Char) (params : Json) (id : Option Int) : List Char :=
  encodeFrameOfBody (jdump (sendPayload method params id))

/-- A frame carrying an arbitrary JSON body (used to model frames an LSP
server sends back). -/
def encodeJsonFrame (v : Json) : List Char :=
  encodeFrameOfBody (jdump v)

/-- The receive loop of `_wait_for`: accumulate bytes until the buffer
ends with `"\r\n\r\n"`; equivalently, split at the first occurrence of
that terminator (terminator kept with the header, as in the Python
buffer). `none` when the input runs out first — on the real socket the
code would block inside `recv`. -/
def scanHdr : List Char → Option (List Char × List Char)
  | [] => none
  | c :: rest =>
    if c = '\r' ∧ rest.take 3 = "\n\r\n".data then
      some ('\r' :: "\n\r\n".data, rest.drop 3)
    else (scanHdr rest).map (fun p => (c :: p.1, p.2))

/-- `text.split("\r\n")`. -/
def splitCRLF : List Char → List (List Char)
  | [] => [[]]
  | [c] => [[c]]
  | c :: d :: rest =>
    if c = '\r' ∧ d = '\n' then [] :: splitCRLF rest
    else (splitCRLF (d :: rest)).modifyHead (c :: ·)

/-- `l.split(":", 1)` guarded by `":" in l`: split at the first colon. -/
def splitColon : List Char → Option (List Char × List Char)
  | [] => none
  | c :: rest =>
    if c = ':' then some ([], rest)
    else (splitColon rest).map (fun p => (c :: p.1, p.2))

/-- The header dict: for every line containing a colon,
`headers[k.strip()] = v.strip()` (later lines overwrite earlier ones, as
dict assignment does). -/
def parseHeaders (lines : List (List Char)) : List (List Char × List Char) :=
  lines.foldl
    (fun acc l =>
      match splitColon l with
      | some (k, v) => acc ++ [(pstrip k, pstrip v)]
      | none => acc)
    []

/-- `headers.get(key, default)`: last assignment wins. -/
def hget (hs : List (List Char × List Char)) (key : List Char) : Option (List Char) :=
  (hs.reverse.find? (fun kv => kv.1 = key)).map (·.2)

/-- Python `int(s)` restricted to what header values can look like here:
optional sign, then decimal digits, nothing else. `none` models the
`ValueError` raise. -/
def pyInt (s : List Char) : Option Int :=
  match pstrip s with
  | [] => none
  | c :: r =>
    if c = '-' then
      match readNat r with
      | some (n, []) => some (-(n : Int))
      | _ => none
    else
      match readNat (c :: r) with
      | some (n, []) => some ((n : Int))
      | _ => none

/-- Outcome of one receive attempt inside `_wait_for`. -/
inductive DecodeRes where
  /-- No (complete) frame is available: the poll loop keeps spinning until
  the timeout elapses. -/
  | noData : DecodeRes
  /-- The frame was read but its body is not valid JSON (or the
  `Content-Length` value is not an int): `json.loads` / `int` raises. -/
  | fail : DecodeRes
  /-- One decoded message, and the bytes remaining after it. -/
  | frame (msg : Json) (rest : List Char) : DecodeRes

/-- Decode one incoming frame from the stream, as the body of
`_wait_for`'s ready branch does. -/
def decodeFrame (s : List Char) : DecodeRes :=
  match scanHdr s with
  | none => .noData
  | some (hdr, rest) =>
    let hs := parseHeaders (splitCRLF hdr)
    let nOpt : Option Int :=
      match hget hs "Content-Length".data with
      | some v => pyInt v
      | none => some 0
    match nOpt with
    | none => .fail
    | some n =>
      let body := rest.take n.toNat
      match jsonLoads body with
      | none => .fail
      | some msg => .frame msg (rest.drop n.toNat)

/-! ### Python-level errors -/

/-- A single quote character, used in Python error messages. -/
def sq : Char := Char.ofNat 39

/-- The exceptions the tool can hit, with `str(e)` given by `pyErrMsg`. -/
inductive PyErr where
  /-- `socket.create_connection` failed (endpoint unreachable). -/
  | connectionError : PyErr
  /-- `RuntimeError("LSP socket not connected.")` raised by `_send`. -/
  | notConnected : PyErr
  /-- `AttributeError` from calling `.get` on a non-dict value; the field
  is the type name appearing in the message. -/
  | attrGet (tyName : List Char) : PyErr
  /-- `json.loads` (or `int()`) raised while decoding an incoming frame. -/
  | decodeError : PyErr
  deriving DecidableEq

/-- `str(e)` as interpolated into the caller-facing error text.  The
connection- and decode-error messages depend on the runtime environment;
they are modelled by fixed representative strings (no claim depends on
their exact contents). -/
def pyErrMsg : PyErr → List Char
  | .connectionError => "[Errno 111] Connection refused".data
  | .notConnected => "LSP socket not connected.".data
  | .attrGet ty => sq :: ty ++ (sq :: " object has no attribute ".data ++ (sq :: "get".data ++ [sq]))
  | .decodeError => "Expecting value: line 1 column 1 (char 0)".data

/-! ### The session (`LSPClientSession`) -/

/-- The observable socket state: frames written so far (`sent`, oldest
first) and the bytes that will arrive before the poll loop's deadline
(`inp`). -/
structure Wire where
  sent : List (List Char)
  inp : List Char
  deriving DecidableEq

/-- `LSPClientSession.__init__`: host/port constants, no socket yet,
`self._id = 0`. -/
structure LSPClientSession where
  host : List Char
  port : Nat
  sockConnected : Bool
  _id : Int
  deriving DecidableEq

/-- A freshly constructed `LSPClientSession()`. -/
def LSPClientSession.new : LSPClientSession :=
  { host := "127.0.0.1".data, port := 2087, sockConnected := false, _id := 0 }

/-- `_send`: raises `RuntimeError` when no socket is connected, otherwise
writes one encoded frame. -/
def LSPClientSession.sendMsg (sess : LSPClientSession) (w : Wire)
    (method : List Char) (params : Json) (id : Option Int) : Option PyErr × Wire :=
  if sess.sockConnected then
    (none, { w with sent := w.sent ++ [encodeMsg method params id] })
  else (some .notConnected, w)

/-- `message.get("id") == target_id` on a decoded frame: only a dict whose
`"id"` member is the awaited int compares equal (a missing `"id"` yields
Python `None`, which never equals an int). -/
def idMatches (msg : Json) (target : Int) : Bool :=
  match msg with
  | .obj kvs =>
    match jlookup kvs "id".data with
    | some (.num n) => n = target
    | _ => false
  | _ => false

/-- The poll loop of `_wait_for`, one iteration per available frame:
decode a frame, return it if its id matches, silently drop it otherwise
(no requeuing).  When no further decodable data is available the loop
spins until `timeout` elapses and falls through to `return None` — here:
`.ok none`.  A decode failure models the raised exception.  `fuel` bounds
the iteration count; each decoded frame consumes input, so
`inp.length + 1` suffices. -/
def waitForGo (target : Int) : Nat → List Char → Except PyErr (Option Json) × List Char
  | 0, inp => (.ok none, inp)
  | fuel + 1, inp =>
    match decodeFrame inp with
    | .noData => (.ok none, inp)
    | .fail => (.error .decodeError, inp)
    | .frame msg rest =>
      match msg with
      | .obj kvs =>
        if idMatches (.obj kvs) target then (.ok (some (.obj kvs)), rest)
        else waitForGo target fuel rest
      | other => (.error (.attrGet (pyTypeName other)), rest)

/-- `LSPClientSession._wait_for(target_id, timeout)`. -/
def LSPClientSession.waitFor (target : Int) (w : Wire) : Except PyErr (Option Json) × Wire :=
  let r := waitForGo target (w.inp.length + 1) w.inp
  (r.1, { w with inp := r.2 })

/-- The `initialize` params dict: `processId`/`rootUri`/`capabilities`,
with `rootUri` built from the current working directory. -/
def initParams (cwd : List Char) : Json :=
  Json.obj
    [("processId".data, Json.null),
     ("rootUri".data, Json.str ("file://".data ++ cwd)),
     ("capabilities".data, Json.obj [])]

/-- Result of `LSPClientSession.start`. -/
structure StartResult where
  err : Option PyErr
  sess : LSPClientSession
  wire : Wire
  reply : Option Json

/-- `LSPClientSession.start`: connect, set `self._id = 1`, send
`initialize` (note: `_send` is called without an `id` argument), wait for
a reply to id 1, then send the `initialized` notification.  `connectOk`
is whether `socket.create_connection` succeeds. -/
def LSPClientSession.start (sess : LSPClientSession) (w : Wire) (connectOk : Bool)
    (cwd : List Char) : StartResult :=
  if connectOk then
    let sess1 := { sess with sockConnected := true, _id := 1 }
    match sess1.sendMsg w "initialize".data (initParams cwd) none with
    | (some e, w1) => { err := some e, sess := sess1, wire := w1, reply := none }
    | (none, w1) =>
      match LSPClientSession.waitFor sess1._id w1 with
      | (.error e, w2) => { err := some e, sess := sess1, wire := w2, reply := none }
      | (.ok reply, w2) =>
        match sess1.sendMsg w2 "initialized".data (Json.obj []) none with
        | (some e, w3) => { err := some e, sess := sess1, wire := w3, reply := reply }
        | (none, w3) => { err := none, sess := sess1, wire := w3, reply := reply }
  else { err := some .connectionError, sess := sess, wire := w, reply := none }

/-- Result of `LSPClientSession.request`. -/
structure ReqResult where
  err : Option PyErr
  reply : Option Json
  sess : LSPClientSession
  wire : Wire

/-- `LSPClientSession.request`: `self._id += 1`, send the request with the
new id, wait for the matching reply.  The increment happens before
anything that can raise, so the session keeps the new id on every path. -/
def LSPClientSession.request (sess : LSPClientSession) (w : Wire)
    (method : List Char) (params : Json) : ReqResult :=
  let sess1 := { sess with _id := sess._id + 1 }
  match sess1.sendMsg w method params (some sess1._id) with
  | (some e, w1) => { err := some e, reply := none, sess := sess1, wire := w1 }
  | (none, w1) =>
    match LSPClientSession.waitFor sess1._id w1 with
    | (.error e, w2) => { err := some e, reply := none, sess := sess1, wire := w2 }
    | (.ok reply, w2) => { err := none, reply := reply, sess := sess1, wire := w2 }

/-! ### `json.dumps(..., indent=2)` — the caller-facing rendering -/

mutual

/-- `json.dumps(x, indent=2)` at nesting level `lvl`: item separator
`",\n" + indent`, key separator `": "`, empty containers compact. -/
def jdumpInd (lvl : Nat) : Json → List Char
  | .null => "null".data
  | .bool true => "true".data
  | .bool false => "false".data
  | .num n => intDigits n
  | .str s => '"' :: (escString s ++ ['"'])
  | .arr [] => "[]".data
  | .arr (x :: xs) =>
    '[' :: '\n' :: (List.replicate (2 * (lvl + 1)) ' ' ++
      (jdumpInd (lvl + 1) x ++ jdumpIndArrRest (lvl + 1) xs))
  | .obj [] => "{}".data
  | .obj (kv :: kvs) =>
    '{' :: '\n' :: (List.replicate (2 * (lvl + 1)) ' ' ++
      (jdumpIndKV (lvl + 1) kv ++ jdumpIndObjRest (lvl + 1) kvs))

/-- Remaining indented array items, then newline + closing `]`. -/
def jdumpIndArrRest (lvl : Nat) : List Json → List Char
  | [] => '\n' :: (List.replicate (2 * (lvl - 1)) ' ' ++ [']'])
  | x :: xs =>
    ',' :: '\n' :: (List.replicate (2 * lvl) ' ' ++
      (jdumpInd lvl x ++ jdumpIndArrRest lvl xs))

/-- One indented `"key": value` pair. -/
def jdumpIndKV (lvl : Nat) : List Char × Json → List Char
  | (k, v) => '"' :: (escString k ++ ('"' :: ':' :: ' ' :: jdumpInd lvl v))

/-- Remaining indented object items, then newline + closing `}`. -/
def jdumpIndObjRest (lvl : Nat) : List (List Char × Json) → List Char
  | [] => '\n' :: (List.replicate (2 * (lvl - 1)) ' ' ++ ['}'])
  | kv :: kvs =>
    ',' :: '\n' :: (List.replicate (2 * lvl) ' ' ++
      (jdumpIndKV lvl kv ++ jdumpIndObjRest lvl kvs))

end

/-! ### The tool (`PythonLSPTool`) -/

/-- `ToolResult(output=...)` / `ToolResult(error=...)`. -/
inductive ToolResult where
  | output (s : List Char) : ToolResult
  | error (s : List Char) : ToolResult
  deriving DecidableEq

/-- The external collaborators of one `execute` call: whether
`socket.create_connection` would succeed, whether the target file exists,
its content, and the current working directory. -/
structure Env where
  connectOk : Bool
  fileExists : Bool
  fileContent : List Char
  cwd : List Char

/-- What one `execute` call leaves behind: the caller-facing result, the
tool's `_session` field, and the socket state. -/
structure ExecResult where
  result : ToolResult
  session : Option LSPClientSession
  wire : Wire

/-- The `textDocument/didOpen` params dict. -/
def didOpenParams (uri content : List Char) : Json :=
  Json.obj
    [("textDocument".data,
      Json.obj
        [("uri".data, Json.str uri),
         ("languageId".data, Json.str "python".data),
         ("version".data, Json.num 1),
         ("text".data, Json.str content)])]

/-- The `textDocument/hover` / `textDocument/definition` params dict. -/
def queryParams (uri : List Char) (line character : Int) : Json :=
  Json.obj
    [("textDocument".data, Json.obj [("uri".data, Json.str uri)]),
     ("position".data,
      Json.obj [("line".data, Json.num line), ("character".data, Json.num character)])]

/-- `f"LSP tool error: {str(e)}"` — the blanket `except Exception`
handler's payload. -/
def lspToolError (e : PyErr) : ToolResult :=
  .error ("LSP tool error: ".data ++ pyErrMsg e)

/-- `result.get("result", {})` followed by
`json.dumps(..., indent=2)`: raises `AttributeError` when the awaited
reply was `None` (timeout) or not a dict; otherwise renders the reply's
`result` member, defaulting to the empty dict. -/
def renderReply (reply : Option Json) : Except PyErr ToolResult :=
  match reply with
  | none => .error (.attrGet "NoneType".data)
  | some (.obj kvs) =>
    .ok (.output (jdumpInd 0 ((jlookup kvs "result".data).getD (Json.obj []))))
  | some other => .error (.attrGet (pyTypeName other))

/-- The body of `execute` from the point where a live session `sess` is at
hand: build the uri, check the file exists, read it, send `didOpen`,
sleep the settle delay (no observable effect here), then dispatch the
action.  Every raised exception is converted by the surrounding handler
into `lspToolError`; the `_session` field keeps whatever session object it
holds. -/
def executeBody (sess : LSPClientSession) (env : Env) (w : Wire)
    (filepath action : List Char) (line character : Int) : ExecResult :=
  -- `os.path.abspath` is modelled as the identity: paths are taken as
  -- already absolute, which the claims never distinguish.
  let uri := "file://".data ++ filepath
  if !env.fileExists then
    { result := .error ("File does not exist: ".data ++ filepath),
      session := some sess, wire := w }
  else
    let content := env.fileContent
    match sess.sendMsg w "textDocument/didOpen".data (didOpenParams uri content) none with
    | (some e, w1) => { result := lspToolError e, session := some sess, wire := w1 }
    | (none, w1) =>
      -- `await asyncio.sleep(0.3)`: settle delay, no observable effect.
      if action = "hover".data then
        let r := sess.request w1 "textDocument/hover".data (queryParams uri line character)
        match r.err with
        | some e => { result := lspToolError e, session := some r.sess, wire := r.wire }
        | none =>
          match renderReply r.reply with
          | .error e => { result := lspToolError e, session := some r.sess, wire := r.wire }
          | .ok out => { result := out, session := some r.sess, wire := r.wire }
      else if action = "definition".data then
        let r := sess.request w1 "textDocument/definition".data (queryParams uri line character)
        match r.err with
        | some e => { result := lspToolError e, session := some r.sess, wire := r.wire }
        | none =>
          match renderReply r.reply with
          | .error e => { result := lspToolError e, session := some r.sess, wire := r.wire }
          | .ok out => { result := out, session := some r.sess, wire := r.wire }
      else
        { result := .error ("Unsupported action: ".data ++ action),
          session := some sess, wire := w1 }

/-- `PythonLSPTool.execute(filepath, action, line, character)`.
`session` is the tool's `_session` field on entry.  When it is `None` a
fresh `LSPClientSession` is assigned to `_session` *before* `start()` is
awaited, so the field keeps the new object even when `start` raises. -/
def execute (session : Option LSPClientSession) (env : Env) (w : Wire)
    (filepath action : List Char) (line character : Int) : ExecResult :=
  match session with
  | none =>
    let r := LSPClientSession.new.start w env.connectOk env.cwd
    match r.err with
    | some e => { result := lspToolError e, session := some r.sess, wire := r.wire }
    | none => executeBody r.sess env r.wire filepath action line character
  | some sess => executeBody sess env w filepath action line character

/-- The ids allocated by a sequence of `request` calls on one session
(threading the mutated session through, exactly as consecutive awaits on
the Python object do). -/
def runRequests (sess : LSPClientSession) (w : Wire) :
    List (List Char × Json) → List Int
  | [] => []
  | (m, p) :: rs =>
    let r := sess.request w m p
    r.sess._id :: runRequests r.sess r.wire rs

/-- Head of a list is not a decimal digit (trivially true of `[]`). -/
def headNotDigitB : List Char → Bool
  | [] => true
  | c :: _ => !c.isDigit

/-- A sequence of frames on the wire, one per message, in arrival order. -/
def encodeFrames (msgs : List Json) : List Char :=
  (msgs.map encodeJsonFrame).flatten

/-- A sample incoming sequence: a Notification without id, a Response
with a non-matching id, then the Response with id 2. -/
def demoFrames : List Json :=
  [Json.obj [("method".data, Json.str "notif".data)],
   Json.obj [("id".data, Json.num 1)],
   Json.obj [("id".data, Json.num 2), ("result".data, Json.null)]]

/-! ## Lemmas: characters and numerals -/

theorem digitChar_isDigit (d : Nat) (h : d < 10) :
    (Char.ofNat (48 + d)).isDigit = true := by
  interval_cases d <;> decide

theorem digitChar_toNat (d : Nat) (h : d < 10) :
    (Char.ofNat (48 + d)).toNat = 48 + d := by
  interval_cases d <;> decide

theorem natDigitsGo_irrel (n : Nat) :
    ∀ f1 f2, n < f1 → n < f2 → natDigitsGo f1 n = natDigitsGo f2 n := by
  induction n using Nat.strong_induction_on with
  | _ n ih =>
    intro f1 f2 h1 h2
    obtain ⟨g1, rfl⟩ : ∃ g, f1 = g + 1 := ⟨f1 - 1, by omega⟩
    obtain ⟨g2, rfl⟩ : ∃ g, f2 = g + 1 := ⟨f2 - 1, by omega⟩
    rw [natDigitsGo, natDigitsGo]
    by_cases h : n < 10
    · rw [if_pos h, if_pos h]
    · rw [if_neg h, if_neg h]
      have hd : n / 10 < n := Nat.div_lt_self (by omega) (by omega)
      rw [ih (n / 10) hd g1 g2 (by omega) (by omega)]

/-- The defining recurrence of `natDigits` (Python `str` of a nonneg int). -/
theorem natDigits_eq (n : Nat) :
    natDigits n = if n < 10 then [Char.ofNat (48 + n)]
      else natDigits (n / 10) ++ [Char.ofNat (48 + n % 10)] := by
  rw [natDigits, natDigits, natDigitsGo]
  by_cases h : n < 10
  · rw [if_pos h, if_pos h]
  · rw [if_neg h, if_neg h]
    have hd : n / 10 < n := Nat.div_lt_self (by omega) (by omega)
    rw [natDigitsGo_irrel (n / 10) n (n / 10 + 1) (by omega) (by omega)]

theorem natDigits_all_digits (n : Nat) : ∀ c ∈ natDigits n, c.isDigit = true := by
  induction n using Nat.strong_induction_on with
  | _ n ih =>
    rw [natDigits_eq]
    split
    · intro c hc
      simp only [List.mem_singleton] at hc
      subst hc
      exact digitChar_isDigit n (by omega)
    · intro c hc
      rcases List.mem_append.mp hc with h1 | h2
      · exact ih (n / 10) (Nat.div_lt_self (by omega) (by omega)) c h1
      · simp only [List.mem_singleton] at h2
        subst h2
        exact digitChar_isDigit (n % 10) (Nat.mod_lt _ (by omega))

theorem natDigits_ne_nil (n : Nat) : natDigits n ≠ [] := by
  rw [natDigits_eq]
  split <;> simp

theorem readDigits_natDigits (n : Nat) :
    ∀ acc rest, readDigits acc (natDigits n ++ rest) =
      readDigits (acc * 10 ^ (natDigits n).length + n) rest := by
  induction n using Nat.strong_induction_on with
  | _ n ih =>
    intro acc rest
    rw [natDigits_eq]
    split
    · next h =>
      simp only [List.singleton_append, List.length_singleton, pow_one]
      rw [readDigits]
      simp only [digitChar_isDigit n h, if_true, digitChar_toNat n h]
      congr 1
      omega
    · next h =>
      rw [List.append_assoc, ih (n / 10) (Nat.div_lt_self (by omega) (by omega)),
        List.singleton_append, readDigits]
      have h10 : n % 10 < 10 := Nat.mod_lt _ (by omega)
      simp only [digitChar_isDigit _ h10, if_true, digitChar_toNat _ h10]
      congr 1
      simp only [List.length_append, List.length_singleton, pow_succ]
      have := Nat.div_add_mod n 10
      set L := 10 ^ (natDigits (n / 10)).length
      ring_nf
      omega

theorem readDigits_stop (acc : Nat) (rest : List Char) (h : headNotDigitB rest = true) :
    readDigits acc rest = (acc, rest) := by
  cases rest with
  | nil => rfl
  | cons c t =>
    simp only [headNotDigitB, Bool.not_eq_true'] at h
    rw [readDigits, h]
    simp

theorem readNat_natDigits (n : Nat) (rest : List Char) (h : headNotDigitB rest = true) :
    readNat (natDigits n ++ rest) = some (n, rest) := by
  cases hnd : natDigits n with
  | nil => exact absurd hnd (natDigits_ne_nil n)
  | cons c t =>
    have hcd : c.isDigit = true := natDigits_all_digits n c (by rw [hnd]; simp)
    simp only [List.cons_append, readNat, hcd, if_true]
    rw [show c :: (t ++ rest) = natDigits n ++ rest by rw [hnd, List.cons_append]]
    rw [readDigits_natDigits n 0 rest, readDigits_stop _ _ h]
    simp

theorem hexVal_hexDig (d : Nat) (h : d < 16) : hexVal (hexDig d) = some d := by
  interval_cases d <;> decide

theorem readHex4_hex4 (n : Nat) (h : n < 65536) (rest : List Char) :
    readHex4 (hex4 n ++ rest) = some (n, rest) := by
  rw [hex4]
  simp only [List.cons_append, List.nil_append]
  rw [readHex4]
  rw [hexVal_hexDig _ (Nat.mod_lt _ (by omega)), hexVal_hexDig _ (Nat.mod_lt _ (by omega)),
    hexVal_hexDig _ (Nat.mod_lt _ (by omega)), hexVal_hexDig _ (Nat.mod_lt _ (by omega))]
  simp only [Option.some.injEq, Prod.mk.injEq, and_true]
  omega

theorem expectChars_self (lit rest : List Char) :
    expectChars lit (lit ++ rest) = some rest := by
  rw [expectChars, if_pos (List.take_left lit rest)]
  rw [List.drop_left]

/-! ## Lemmas: string escaping round-trip -/

theorem char_valid_range (c : Char) :
    c.toNat < 0xD800 ∨ (0xE000 ≤ c.toNat ∧ c.toNat < 0x110000) := by
  have h := c.valid
  simp only [UInt32.isValidChar, Nat.isValidChar] at h
  exact h

theorem escString_nil : escString [] = [] := rfl

theorem escString_cons (c : Char) (s : List Char) :
    escString (c :: s) = escChar c ++ escString s := by
  simp [escString]

theorem readStrBody_u (f : Nat) (n : Nat) (tail : List Char)
    (hn : n < 65536)
    (hno : ¬(0xD800 ≤ n ∧ n < 0xDC00)) (hno2 : ¬(0xDC00 ≤ n ∧ n < 0xE000)) :
    readStrBody (f + 1) ('\\' :: 'u' :: (hex4 n ++ tail)) =
      (readStrBody f tail).map (fun p => (Char.ofNat n :: p.1, p.2)) := by
  simp only [readStrBody, if_true]
  rw [if_neg (by decide), if_neg (by decide), if_neg (by decide), if_neg (by decide),
    if_neg (by decide), if_neg (by decide), if_neg (by decide), if_neg (by decide),
    if_neg (by decide)]
  rw [readHex4_hex4 n hn tail]
  simp only []
  rw [if_neg hno, if_neg hno2]

theorem readStrBody_surrogate (f hi lo : Nat) (tail : List Char)
    (hhi : 0xD800 ≤ hi ∧ hi < 0xDC00) (hlo : 0xDC00 ≤ lo ∧ lo < 0xE000) :
    readStrBody (f + 1) ('\\' :: 'u' :: (hex4 hi ++ ('\\' :: 'u' :: (hex4 lo ++ tail)))) =
      (readStrBody f tail).map
        (fun p => (Char.ofNat (0x10000 + (hi - 0xD800) * 0x400 + (lo - 0xDC00)) :: p.1, p.2)) := by
  simp only [readStrBody, if_true]
  rw [if_neg (by decide), if_neg (by decide), if_neg (by decide), if_neg (by decide),
    if_neg (by decide), if_neg (by decide), if_neg (by decide), if_neg (by decide),
    if_neg (by decide)]
  rw [readHex4_hex4 hi (by omega) _]
  simp only []
  rw [if_pos hhi]
  try simp only []
  rw [readHex4_hex4 lo (by omega) tail]
  try simp only []
  rw [if_pos hlo]

theorem readStrBody_escChar (c : Char) (tail : List Char) (f : Nat) :
    readStrBody (f + 1) (escChar c ++ tail) =
      (readStrBody f tail).map (fun p => (c :: p.1, p.2)) := by
  by_cases h1 : c = '"'
  · subst h1; rfl
  by_cases h2 : c = '\\'
  · subst h2; rfl
  by_cases h3 : c = '\n'
  · subst h3; rfl
  by_cases h4 : c = '\r'
  · subst h4; rfl
  by_cases h5 : c = '\t'
  · subst h5; rfl
  by_cases h6 : c = Char.ofNat 8
  · subst h6; rfl
  by_cases h7 : c = Char.ofNat 12
  · subst h7; rfl
  rw [escChar, if_neg h1, if_neg h2, if_neg h3, if_neg h4, if_neg h5, if_neg h6, if_neg h7]
  by_cases h8 : c.toNat < 0x20
  · rw [if_pos h8]
    simp only [List.cons_append]
    rw [readStrBody_u f c.toNat tail (by omega) (by omega) (by omega), Char.ofNat_toNat]
  rw [if_neg h8]
  by_cases h9 : c.toNat ≤ 0x7E
  · rw [if_pos h9]
    simp only [List.singleton_append]
    simp only [readStrBody]
    rw [if_neg h1, if_neg h2, if_neg h8]
  rw [if_neg h9]
  have hv := char_valid_range c
  by_cases h10 : c.toNat < 0x10000
  · rw [if_pos h10]
    simp only [List.cons_append]
    rw [readStrBody_u f c.toNat tail (by omega) (by omega) (by omega), Char.ofNat_toNat]
  rw [if_neg h10]
  simp only [List.cons_append, List.append_assoc, List.nil_append]
  rw [readStrBody_surrogate f _ _ tail (by constructor <;> omega) (by constructor <;> omega)]
  rw [show 0x10000 + (0xD800 + (c.toNat - 0x10000) / 0x400 - 0xD800) * 0x400 +
      (0xDC00 + (c.toNat - 0x10000) % 0x400 - 0xDC00) = c.toNat by omega]
  rw [Char.ofNat_toNat]

theorem escChar_length_pos (c : Char) : 1 ≤ (escChar c).length := by
  by_cases h1 : c = '"'
  · subst h1; decide
  by_cases h2 : c = '\\'
  · subst h2; decide
  by_cases h3 : c = '\n'
  · subst h3; decide
  by_cases h4 : c = '\r'
  · subst h4; decide
  by_cases h5 : c = '\t'
  · subst h5; decide
  by_cases h6 : c = Char.ofNat 8
  · subst h6; decide
  by_cases h7 : c = Char.ofNat 12
  · subst h7; decide
  rw [escChar, if_neg h1, if_neg h2, if_neg h3, if_neg h4, if_neg h5, if_neg h6, if_neg h7]
  by_cases h8 : c.toNat < 0x20
  · rw [if_pos h8]; simp [hex4]
  rw [if_neg h8]
  by_cases h9 : c.toNat ≤ 0x7E
  · rw [if_pos h9]; simp
  rw [if_neg h9]
  by_cases h10 : c.toNat < 0x10000
  · rw [if_pos h10]; simp [hex4]
  rw [if_neg h10]
  simp [hex4]

theorem escString_length_ge (s : List Char) : s.length ≤ (escString s).length := by
  induction s with
  | nil => simp [escString_nil]
  | cons c s ih =>
    rw [escString_cons]
    simp only [List.length_append, List.length_cons]
    have := escChar_length_pos c
    omega

theorem readStrBody_esc (s : List Char) :
    ∀ rest fuel, s.length < fuel →
      readStrBody fuel (escString s ++ ('"' :: rest)) = some (s, rest) := by
  induction s with
  | nil =>
    intro rest fuel hf
    obtain ⟨f, rfl⟩ : ∃ f, fuel = f + 1 := ⟨fuel - 1, by omega⟩
    rw [escString_nil, List.nil_append]
    rfl
  | cons c s ih =>
    intro rest fuel hf
    obtain ⟨f, rfl⟩ : ∃ f, fuel = f + 1 := ⟨fuel - 1, by omega⟩
    rw [escString_cons, List.append_assoc, readStrBody_escChar,
      ih rest f (by simpa using Nat.lt_of_succ_lt_succ hf)]
    rfl

/-! ## Lemmas: whole-document round-trip -/

theorem isDigit_toNat_bounds (c : Char) (h : c.isDigit = true) :
    48 ≤ c.toNat ∧ c.toNat ≤ 57 := by
  simp only [Char.isDigit, Bool.and_eq_true, decide_eq_true_eq] at h
  obtain ⟨h1, h2⟩ := h
  exact ⟨UInt32.le_toNat_of_le (by decide) h1, UInt32.toNat_le_of_le (by decide) h2⟩

theorem isDigit_not_ws (c : Char) (h : c.isDigit = true) : isJsonWs c = false := by
  have hb := isDigit_toNat_bounds c h
  rw [isJsonWs]
  rw [decide_eq_false (by omega : ¬ c.toNat = 32), decide_eq_false (by omega : ¬ c.toNat = 9),
    decide_eq_false (by omega : ¬ c.toNat = 10), decide_eq_false (by omega : ¬ c.toNat = 13)]
  rfl

theorem char_ne_of_toNat_ne (c d : Char) (h : c.toNat ≠ d.toNat) : c ≠ d := by
  intro he
  exact h (by rw [he])

theorem natDigits_head_shape (n : Nat) :
    ∃ c t, natDigits n = c :: t ∧ c.isDigit = true := by
  cases hnd : natDigits n with
  | nil => exact absurd hnd (natDigits_ne_nil n)
  | cons c t =>
    exact ⟨c, t, rfl, natDigits_all_digits n c (by rw [hnd]; simp)⟩

/-- The first character of a serialized JSON value is never whitespace and
never a closing bracket. -/
theorem jdump_head (v : Json) :
    ∃ c t, jdump v = c :: t ∧ isJsonWs c = false ∧ c ≠ ']' ∧ c ≠ '}' := by
  have hok : ∀ c : Char, c ∈ ['n', 't', 'f', '"', '[', '{', '-'] →
      isJsonWs c = false ∧ c ≠ ']' ∧ c ≠ '}' := by decide
  cases v with
  | num n =>
    rw [jdump, intDigits]
    by_cases hn : n < 0
    · rw [if_pos hn]
      exact ⟨'-', _, rfl, hok '-' (by decide)⟩
    · rw [if_neg hn]
      obtain ⟨c, t, he, hd⟩ := natDigits_head_shape n.toNat
      have hb := isDigit_toNat_bounds c hd
      refine ⟨c, t, he, isDigit_not_ws c hd, ?_, ?_⟩
      · exact char_ne_of_toNat_ne c ']' (by rw [show (']' : Char).toNat = 93 from rfl]; omega)
      · exact char_ne_of_toNat_ne c '}' (by rw [show ('}' : Char).toNat = 125 from rfl]; omega)
  | null => exact ⟨'n', _, rfl, hok 'n' (by decide)⟩
  | bool b =>
    cases b
    · exact ⟨'f', _, rfl, hok 'f' (by decide)⟩
    · exact ⟨'t', _, rfl, hok 't' (by decide)⟩
  | str s => exact ⟨'"', _, rfl, hok '"' (by decide)⟩
  | arr xs =>
    cases xs
    · exact ⟨'[', _, rfl, hok '[' (by decide)⟩
    · exact ⟨'[', _, rfl, hok '[' (by decide)⟩
  | obj kvs =>
    cases kvs
    · exact ⟨'{', _, rfl, hok '{' (by decide)⟩
    · exact ⟨'{', _, rfl, hok '{' (by decide)⟩

theorem jdump_length_pos (v : Json) : 1 ≤ (jdump v).length := by
  obtain ⟨c, t, he, -⟩ := jdump_head v
  rw [he]
  simp

theorem jdumpArrRest_length_pos (xs : List Json) : 1 ≤ (jdumpArrRest xs).length := by
  cases xs <;> simp [jdumpArrRest]

theorem jdumpObjRest_length_pos (kvs : List (List Char × Json)) :
    1 ≤ (jdumpObjRest kvs).length := by
  cases kvs <;> simp [jdumpObjRest]

theorem skipWs_of_head (c : Char) (s : List Char) (h : isJsonWs c = false) :
    skipWs (c :: s) = c :: s := by
  rw [skipWs, h]
  simp

theorem skipWs_jdump (v : Json) (t : List Char) :
    skipWs (jdump v ++ t) = jdump v ++ t := by
  obtain ⟨c, cs, he, hw, -, -⟩ := jdump_head v
  rw [he, List.cons_append, skipWs_of_head c _ hw]

theorem skipWs_cons_space (s : List Char) : skipWs (' ' :: s) = skipWs s := by
  simp [skipWs, isJsonWs]

theorem jparse_cons_space (fuel : Nat) (s : List Char) :
    jparse fuel (' ' :: s) = jparse fuel s := by
  cases fuel with
  | zero => rfl
  | succ f =>
    rw [jparse, jparse, skipWs_cons_space]

theorem headNotDigitB_arrRest (xs : List Json) (rest : List Char) :
    headNotDigitB (jdumpArrRest xs ++ rest) = true := by
  cases xs <;> simp [jdumpArrRest, headNotDigitB]

theorem headNotDigitB_objRest (kvs : List (List Char × Json)) (rest : List Char) :
    headNotDigitB (jdumpObjRest kvs ++ rest) = true := by
  cases kvs <;> simp [jdumpObjRest, headNotDigitB]

/-- Round-trip for the `", " item ... "]"` continuation of a serialized
array, given the round-trip property of every element. -/
theorem jparseArrRest_items :
    ∀ xs : List Json,
      (∀ y ∈ xs, ∀ rest fuel, (jdump y).length < fuel → headNotDigitB rest = true →
        jparse fuel (jdump y ++ rest) = some (y, rest)) →
      ∀ rest fuel, (jdumpArrRest xs).length ≤ fuel →
        jparseArrRest fuel (jdumpArrRest xs ++ rest) = some (xs, rest) := by
  intro xs
  induction xs with
  | nil =>
    intro _ rest fuel hf
    obtain ⟨f, rfl⟩ : ∃ f, fuel = f + 1 := ⟨fuel - 1, by simp [jdumpArrRest] at hf; omega⟩
    rfl
  | cons y ys ih =>
    intro hel rest fuel hf
    have hylen := jdump_length_pos y
    have hyslen := jdumpArrRest_length_pos ys
    rw [jdumpArrRest] at hf ⊢
    simp only [List.length_cons, List.length_append] at hf
    obtain ⟨f, rfl⟩ : ∃ f, fuel = f + 1 := ⟨fuel - 1, by omega⟩
    simp only [jparseArrRest, List.cons_append, List.append_assoc]
    rw [skipWs_of_head ',' _ (by decide)]
    simp only []
    rw [if_neg (by decide)]
    simp only [if_true]
    rw [jparse_cons_space,
      hel y (by simp) (jdumpArrRest ys ++ rest) f (by omega) (headNotDigitB_arrRest ys rest)]
    simp only []
    rw [ih (fun z hz => hel z (List.mem_cons_of_mem y hz)) rest f (by omega)]

/-- Round-trip for the `", " member ... "}"` continuation of a serialized
object, given the round-trip property of every member value. -/
theorem jparseObjRest_items :
    ∀ kvs : List (List Char × Json),
      (∀ p ∈ kvs, ∀ rest fuel, (jdump p.2).length < fuel → headNotDigitB rest = true →
        jparse fuel (jdump p.2 ++ rest) = some (p.2, rest)) →
      ∀ rest fuel, (jdumpObjRest kvs).length ≤ fuel →
        jparseObjRest fuel (jdumpObjRest kvs ++ rest) = some (kvs, rest) := by
  intro kvs
  induction kvs with
  | nil =>
    intro _ rest fuel hf
    obtain ⟨f, rfl⟩ : ∃ f, fuel = f + 1 := ⟨fuel - 1, by simp [jdumpObjRest] at hf; omega⟩
    rfl
  | cons kv kvs ih =>
    obtain ⟨k, v⟩ := kv
    intro hel rest fuel hf
    have hvlen := jdump_length_pos v
    have hkvslen := jdumpObjRest_length_pos kvs
    have hklen := escString_length_ge k
    rw [jdumpObjRest, jdumpKV] at hf ⊢
    simp only [List.length_cons, List.length_append] at hf
    obtain ⟨f, rfl⟩ : ∃ f, fuel = f + 1 := ⟨fuel - 1, by omega⟩
    simp only [jparseObjRest, List.cons_append, List.append_assoc]
    rw [skipWs_of_head ',' _ (by decide)]
    simp only []
    rw [if_neg (by decide)]
    simp only [if_true]
    rw [skipWs_cons_space, skipWs_of_head '"' _ (by decide)]
    simp only [if_true]
    rw [readStrBody_esc k _ f (by omega)]
    simp only []
    rw [skipWs_of_head ':' _ (by decide)]
    simp only [if_true]
    rw [jparse_cons_space,
      hel (k, v) (by simp) (jdumpObjRest kvs ++ rest) f
        (by show (jdump v).length < f; omega) (headNotDigitB_objRest kvs rest)]
    simp only []
    rw [ih (fun p hp => hel p (List.mem_cons_of_mem (k, v) hp)) rest f (by omega)]

/-- The decoder inverts the serializer: core statement, by strong
induction on the size of the value. -/
theorem jparse_jdump_bounded :
    ∀ N : Nat, ∀ v : Json, sizeOf v ≤ N →
      ∀ rest fuel, (jdump v).length < fuel → headNotDigitB rest = true →
        jparse fuel (jdump v ++ rest) = some (v, rest) := by
  intro N
  induction N with
  | zero =>
    intro v hN
    exact absurd hN (by cases v <;> simp)
  | succ N ih =>
    intro v hN rest fuel hfuel hrest
    obtain ⟨f, rfl⟩ : ∃ f, fuel = f + 1 :=
      ⟨fuel - 1, by have := jdump_length_pos v; omega⟩
    cases v with
    | null => rfl
    | bool b => cases b <;> rfl
    | num n =>
      rw [jdump, intDigits]
      by_cases hn : n < 0
      · rw [if_pos hn]
        rw [jparse, List.cons_append, skipWs_of_head '-' _ (by decide)]
        simp only []
        rw [if_neg (by decide), if_neg (by decide), if_neg (by decide), if_neg (by decide),
          if_neg (by decide), if_neg (by decide)]
        simp only [if_true]
        rw [readNat_natDigits _ rest hrest]
        simp only []
        rw [show -(((-n).toNat : Nat) : Int) = n by omega]
      · rw [if_neg hn]
        obtain ⟨c, t, hnd, hdig⟩ := natDigits_head_shape n.toNat
        have hb := isDigit_toNat_bounds c hdig
        rw [jparse, hnd, List.cons_append, skipWs_of_head c _ (isDigit_not_ws c hdig)]
        simp only []
        rw [if_neg (char_ne_of_toNat_ne c 'n' (by rw [show ('n' : Char).toNat = 110 from rfl]; omega)),
          if_neg (char_ne_of_toNat_ne c 't' (by rw [show ('t' : Char).toNat = 116 from rfl]; omega)),
          if_neg (char_ne_of_toNat_ne c 'f' (by rw [show ('f' : Char).toNat = 102 from rfl]; omega)),
          if_neg (char_ne_of_toNat_ne c '"' (by rw [show ('"' : Char).toNat = 34 from rfl]; omega)),
          if_neg (char_ne_of_toNat_ne c '[' (by rw [show ('[' : Char).toNat = 91 from rfl]; omega)),
          if_neg (char_ne_of_toNat_ne c '{' (by rw [show ('{' : Char).toNat = 123 from rfl]; omega)),
          if_neg (char_ne_of_toNat_ne c '-' (by rw [show ('-' : Char).toNat = 45 from rfl]; omega)),
          if_pos hdig]
        rw [show c :: (t ++ rest) = natDigits n.toNat ++ rest by rw [hnd, List.cons_append]]
        rw [readNat_natDigits _ rest hrest]
        simp only []
        rw [show ((n.toNat : Nat) : Int) = n by omega]
    | str s =>
      have hesc := escString_length_ge s
      rw [jdump] at hfuel ⊢
      simp only [List.length_cons, List.length_append] at hfuel
      rw [jparse]
      rw [show ('"' :: (escString s ++ ['"'])) ++ rest =
        '"' :: (escString s ++ ('"' :: rest)) by simp]
      rw [skipWs_of_head '"' _ (by decide)]
      simp only []
      rw [if_neg (by decide), if_neg (by decide), if_neg (by decide)]
      simp only [if_true]
      rw [readStrBody_esc s rest f (by omega)]
      rfl
    | arr xs =>
      cases xs with
      | nil =>
        obtain ⟨f', rfl⟩ : ∃ f', f = f' + 1 := ⟨f - 1, by simp [jdump] at hfuel; omega⟩
        rfl
      | cons x xs =>
        have hxlen := jdump_length_pos x
        have hxslen := jdumpArrRest_length_pos xs
        have hsize : sizeOf x ≤ N := by
          simp only [Json.arr.sizeOf_spec, List.cons.sizeOf_spec] at hN
          omega
        rw [jdump] at hfuel ⊢
        simp only [List.length_cons, List.length_append] at hfuel
        obtain ⟨f', rfl⟩ : ∃ f', f = f' + 1 := ⟨f - 1, by omega⟩
        rw [jparse]
        simp only [List.cons_append, List.append_assoc]
        rw [skipWs_of_head '[' _ (by decide)]
        simp only []
        rw [if_neg (by decide), if_neg (by decide), if_neg (by decide), if_neg (by decide)]
        simp only [if_true]
        rw [jparseArr]
        try simp only []
        rw [skipWs_jdump x (jdumpArrRest xs ++ rest)]
        obtain ⟨c, cs, hx, hw, hne1, hne2⟩ := jdump_head x
        rw [hx, List.cons_append]
        simp only []
        rw [if_neg hne1]
        rw [show c :: (cs ++ (jdumpArrRest xs ++ rest)) =
          jdump x ++ (jdumpArrRest xs ++ rest) by rw [hx, List.cons_append]]
        rw [ih x hsize _ f' (by omega) (headNotDigitB_arrRest xs rest)]
        simp only []
        rw [jparseArrRest_items xs
          (fun y hy => ih y (by
            have := List.sizeOf_lt_of_mem hy
            simp only [Json.arr.sizeOf_spec, List.cons.sizeOf_spec] at hN
            omega))
          rest f' (by omega)]
    | obj kvs =>
      cases kvs with
      | nil =>
        obtain ⟨f', rfl⟩ : ∃ f', f = f' + 1 := ⟨f - 1, by simp [jdump] at hfuel; omega⟩
        rfl
      | cons kv kvs =>
        obtain ⟨k, v⟩ := kv
        have hvlen := jdump_length_pos v
        have hkvslen := jdumpObjRest_length_pos kvs
        have hklen := escString_length_ge k
        have hsize : sizeOf v ≤ N ∧ ∀ p ∈ kvs, sizeOf p.2 ≤ N := by
          simp only [Json.obj.sizeOf_spec, List.cons.sizeOf_spec, Prod.mk.sizeOf_spec] at hN
          constructor
          · omega
          · intro p hp
            have h1 := List.sizeOf_lt_of_mem hp
            have h2 : sizeOf p.2 < sizeOf p := by
              obtain ⟨a, b⟩ := p
              simp [Prod.mk.sizeOf_spec]
            omega
        rw [jdump, jdumpKV] at hfuel ⊢
        simp only [List.length_cons, List.length_append] at hfuel
        obtain ⟨f', rfl⟩ : ∃ f', f = f' + 1 := ⟨f - 1, by omega⟩
        rw [jparse]
        simp only [List.cons_append, List.append_assoc]
        rw [skipWs_of_head '{' _ (by decide)]
        simp only []
        rw [if_neg (by decide), if_neg (by decide), if_neg (by decide), if_neg (by decide),
          if_neg (by decide)]
        simp only [if_true]
        rw [jparseObj]
        try simp only []
        rw [skipWs_of_head '"' _ (by decide)]
        simp only []
        rw [if_neg (by decide)]
        simp only [if_true]
        rw [readStrBody_esc k _ f' (by omega)]
        simp only []
        rw [skipWs_of_head ':' _ (by decide)]
        simp only [if_true]
        rw [jparse_cons_space]
        rw [ih v hsize.1 _ f' (by omega) (headNotDigitB_objRest kvs rest)]
        simp only []
        rw [jparseObjRest_items kvs
          (fun p hp => ih p.2 (hsize.2 p hp)) rest f' (by omega)]

/-- The decoder inverts the serializer (framing-free round-trip):
`json.loads(json.dumps(v))` recovers `v` exactly. -/
theorem jsonLoads_jdump (v : Json) : jsonLoads (jdump v) = some v := by
  rw [jsonLoads]
  have h := jparse_jdump_bounded (sizeOf v) v le_rfl [] ((jdump v).length + 1)
    (by omega) rfl
  rw [List.append_nil] at h
  rw [h]
  rfl

/-! ## Lemmas: the framing codec -/

theorem scanHdr_no_cr (pre : List Char) (hcr : ∀ c ∈ pre, c ≠ '\r') :
    ∀ rest, scanHdr (pre ++ ('\r' :: '\n' :: '\r' :: '\n' :: rest)) =
      some (pre ++ "\r\n\r\n".data, rest) := by
  induction pre with
  | nil => intro rest; rfl
  | cons c pre ih =>
    intro rest
    have hc : c ≠ '\r' := hcr c (by simp)
    rw [List.cons_append, scanHdr, if_neg (fun h => hc h.1)]
    rw [ih (fun d hd => hcr d (by simp [hd])) rest]
    rfl

theorem splitCRLF_no_cr (line : List Char) (hcr : ∀ c ∈ line, c ≠ '\r') :
    ∀ rest, splitCRLF (line ++ ('\r' :: '\n' :: rest)) = line :: splitCRLF rest := by
  induction line with
  | nil =>
    intro rest
    rw [List.nil_append, splitCRLF, if_pos ⟨rfl, rfl⟩]
  | cons c line ih =>
    intro rest
    have hc : c ≠ '\r' := hcr c (by simp)
    have ih2 := ih (fun d hd => hcr d (by simp [hd])) rest
    cases line with
    | nil =>
      rw [List.nil_append] at ih2
      rw [List.cons_append, List.nil_append, splitCRLF, if_neg (fun h => hc h.1), ih2]
      rfl
    | cons c2 cs =>
      rw [List.cons_append, List.cons_append, splitCRLF, if_neg (fun h => hc h.1)]
      rw [show c2 :: (cs ++ ('\r' :: '\n' :: rest)) = (c2 :: cs) ++ ('\r' :: '\n' :: rest)
        from rfl]
      rw [ih2]
      rfl

theorem splitColon_first (pre : List Char) (hpc : ∀ c ∈ pre, c ≠ ':') :
    ∀ suf, splitColon (pre ++ (':' :: suf)) = some (pre, suf) := by
  induction pre with
  | nil => intro suf; rfl
  | cons c pre ih =>
    intro suf
    have hc : c ≠ ':' := hpc c (by simp)
    rw [List.cons_append, splitColon, if_neg hc]
    rw [ih (fun d hd => hpc d (by simp [hd])) suf]
    rfl

theorem dropWhile_not_head (p : Char → Bool) (c : Char) (s : List Char)
    (h : p c = false) : (c :: s).dropWhile p = c :: s := by
  rw [List.dropWhile_cons, h]
  simp

theorem pstrip_cons_space (s : List Char) : pstrip (' ' :: s) = pstrip s := by
  rw [pstrip, pstrip]
  rw [show (' ' :: s).dropWhile isJsonWs = s.dropWhile isJsonWs from by
    rw [List.dropWhile_cons]; simp [isJsonWs]]

theorem pstrip_natDigits (n : Nat) : pstrip (natDigits n) = natDigits n := by
  obtain ⟨c, t, hnd, hdig⟩ := natDigits_head_shape n
  rw [pstrip]
  rw [hnd, dropWhile_not_head _ _ _ (isDigit_not_ws c hdig), ← hnd]
  cases hrev : (natDigits n).reverse with
  | nil => exact absurd (by simpa using congrArg List.reverse hrev) (natDigits_ne_nil n)
  | cons d t' =>
    have hd : d.isDigit = true := by
      have : d ∈ (natDigits n).reverse := by rw [hrev]; simp
      exact natDigits_all_digits n d (List.mem_reverse.mp this)
    rw [dropWhile_not_head _ _ _ (isDigit_not_ws d hd), ← hrev]
    simp

theorem pstrip_digits (n : Nat) : pstrip (' ' :: natDigits n) = natDigits n := by
  rw [pstrip_cons_space, pstrip_natDigits]

theorem pyInt_natDigits_bare (n : Nat) : pyInt (natDigits n) = some (n : Int) := by
  rw [pyInt, pstrip_natDigits]
  obtain ⟨c, t, hnd, hdig⟩ := natDigits_head_shape n
  have hb := isDigit_toNat_bounds c hdig
  rw [hnd]
  simp only []
  rw [if_neg (char_ne_of_toNat_ne c '-' (by rw [show ('-' : Char).toNat = 45 from rfl]; omega))]
  rw [show c :: t = natDigits n ++ [] from by rw [hnd, List.append_nil]]
  rw [readNat_natDigits n [] rfl]

theorem no_cr_header (n : Nat) : ∀ c ∈ clHeaderLit ++ natDigits n, c ≠ '\r' := by
  have hlit : ∀ c ∈ clHeaderLit, c ≠ '\r' := by decide
  intro c hc
  rcases List.mem_append.mp hc with h | h
  · exact hlit c h
  · have hdig := natDigits_all_digits n c h
    have hb := isDigit_toNat_bounds c hdig
    exact char_ne_of_toNat_ne c '\r' (by rw [show ('\r' : Char).toNat = 13 from rfl]; omega)

/-- Decoding one encoded frame: the header scan stops at the terminator,
`Content-Length` is recovered, exactly the body is consumed, and the rest
of the stream is untouched. -/
theorem decodeFrame_encode (body : List Char) (v : Json) (hb : jsonLoads body = some v)
    (rest : List Char) :
    decodeFrame (encodeFrameOfBody body ++ rest) = .frame v rest := by
  rw [decodeFrame, encodeFrameOfBody]
  rw [show (clHeaderLit ++ natDigits body.length ++ "\r\n\r\n".data ++ body) ++ rest =
      (clHeaderLit ++ natDigits body.length) ++ ('\r' :: '\n' :: '\r' :: '\n' :: (body ++ rest))
    from by simp [clHeaderLit]]
  rw [scanHdr_no_cr _ (no_cr_header body.length) (body ++ rest)]
  simp only []
  rw [show (clHeaderLit ++ natDigits body.length) ++ "\r\n\r\n".data =
      (clHeaderLit ++ natDigits body.length) ++ ('\r' :: '\n' :: ('\r' :: '\n' :: ([] : List Char)))
    from rfl]
  rw [splitCRLF_no_cr _ (no_cr_header body.length) _,
    show splitCRLF ['\r', '\n'] = [[], []] from by simp [splitCRLF]]
  rw [show clHeaderLit ++ natDigits body.length =
      "Content-Length".data ++ (':' :: (' ' :: natDigits body.length)) from by
    simp [clHeaderLit]]
  rw [parseHeaders]
  simp only [List.foldl_cons, List.foldl_nil]
  rw [splitColon_first _ (by decide) _]
  simp only []
  rw [show splitColon [] = none from rfl]
  simp only []
  rw [show pstrip "Content-Length".data = "Content-Length".data from by decide]
  rw [hget]
  simp only [List.reverse_cons, List.reverse_nil, List.nil_append]
  rw [show List.find? (fun kv => decide (kv.1 = "Content-Length".data))
        [(("Content-Length".data : List Char), pstrip (' ' :: natDigits body.length))] =
      some (("Content-Length".data : List Char), pstrip (' ' :: natDigits body.length)) from by
    rw [List.find?]
    simp]
  simp only [Option.map_some]
  rw [show pstrip (' ' :: natDigits body.length) = natDigits body.length from
    pstrip_digits body.length]
  simp only [Option.map]
  rw [pyInt_natDigits_bare body.length]
  simp only []
  rw [show ((body.length : Nat) : Int).toNat = body.length from rfl]
  rw [List.take_left, List.drop_left]
  rw [hb]

/-! ## Lemmas: the correlation engine (`_wait_for`) -/

theorem decodeFrame_encodeJsonFrame (v : Json) (rest : List Char) :
    decodeFrame (encodeJsonFrame v ++ rest) = .frame v rest :=
  decodeFrame_encode (jdump v) v (jsonLoads_jdump v) rest

theorem encodeFrames_nil : encodeFrames [] = [] := rfl

theorem encodeFrames_cons (m : Json) (ms : List Json) :
    encodeFrames (m :: ms) = encodeJsonFrame m ++ encodeFrames ms := by
  simp [encodeFrames]

theorem encodeFrames_length_ge (msgs : List Json) :
    msgs.length ≤ (encodeFrames msgs).length := by
  induction msgs with
  | nil => simp [encodeFrames_nil]
  | cons m ms ih =>
    rw [encodeFrames_cons]
    have : 1 ≤ (encodeJsonFrame m).length := by
      rw [encodeJsonFrame, encodeFrameOfBody]
      simp [clHeaderLit]
    simp only [List.length_append, List.length_cons]
    omega

theorem dropWhile_head_false (p : Json → Bool) (l : List Json) :
    ∀ a ∈ (l.dropWhile p).head?, p a = false := by
  induction l with
  | nil => simp
  | cons x xs ih =>
    rw [List.dropWhile_cons]
    by_cases h : p x
    · rw [if_pos h]; exact ih
    · rw [if_neg h]
      intro a ha
      simp only [List.head?_cons, Option.mem_def, Option.some.injEq] at ha
      subst ha
      simpa using h

/-- The poll loop on a wire carrying exactly the frames `msgs` (all of
them dicts, as LSP messages are): it returns the first message whose id
matches, dropping the skipped ones, and the sentinel `none` when no
message matches; it never raises. -/
theorem waitForGo_frames (target : Int) :
    ∀ (msgs : List Json), (∀ m ∈ msgs, m.isObj = true) →
      ∀ fuel, msgs.length < fuel →
        waitForGo target fuel (encodeFrames msgs) =
          (.ok (msgs.dropWhile (fun m => !idMatches m target)).head?,
           encodeFrames (msgs.dropWhile (fun m => !idMatches m target)).tail) := by
  intro msgs
  induction msgs with
  | nil =>
    intro _ fuel hf
    obtain ⟨f, rfl⟩ : ∃ f, fuel = f + 1 := ⟨fuel - 1, by omega⟩
    rfl
  | cons m ms ih =>
    intro hobj fuel hf
    obtain ⟨f, rfl⟩ : ∃ f, fuel = f + 1 := ⟨fuel - 1, by omega⟩
    rw [waitForGo, encodeFrames_cons, decodeFrame_encodeJsonFrame]
    have hmobj := hobj m (by simp)
    obtain ⟨kvs, rfl⟩ : ∃ kvs, m = Json.obj kvs := by
      cases m <;> first | exact ⟨_, rfl⟩ | simp [Json.isObj] at hmobj
    simp only []
    rw [List.dropWhile_cons]
    by_cases hm : idMatches (Json.obj kvs) target
    · rw [if_pos hm, if_neg (by simp [hm])]
      simp
    · rw [if_neg hm, if_pos (by simp [hm])]
      rw [ih (fun x hx => hobj x (by simp [hx])) f (by simpa using Nat.lt_of_succ_lt_succ hf)]

/-- `_wait_for` on a wire carrying exactly the frames `msgs`. -/
theorem waitFor_frames (target : Int) (w : Wire) (msgs : List Json)
    (hobj : ∀ m ∈ msgs, m.isObj = true) (hinp : w.inp = encodeFrames msgs) :
    LSPClientSession.waitFor target w =
      (.ok (msgs.dropWhile (fun m => !idMatches m target)).head?,
       { w with inp := encodeFrames (msgs.dropWhile (fun m => !idMatches m target)).tail }) := by
  rw [LSPClientSession.waitFor, hinp]
  rw [waitForGo_frames target msgs hobj ((encodeFrames msgs).length + 1)
    (by have := encodeFrames_length_ge msgs; omega)]

/-- The frames written by `_wait_for` are unchanged: it only consumes
incoming bytes. -/
theorem waitFor_sent (target : Int) (w : Wire) :
    ((LSPClientSession.waitFor target w).2).sent = w.sent := rfl

/-! ## Lemmas: session and tool state -/

/-- `request` increments the id counter on every path (the increment
happens before send and wait). -/
theorem request_sess (sess : LSPClientSession) (w : Wire) (m : List Char) (p : Json) :
    (sess.request w m p).sess = { sess with _id := sess._id + 1 } := by
  rw [LSPClientSession.request]
  split
  · rfl
  · split <;> rfl

/-- `executeBody` either leaves the session object as given or advances
its id counter by one (via `request`); it never clears or replaces it. -/
theorem executeBody_session (sess : LSPClientSession) (env : Env) (w : Wire)
    (fp act : List Char) (l c : Int) :
    (executeBody sess env w fp act l c).session = some sess ∨
    (executeBody sess env w fp act l c).session = some { sess with _id := sess._id + 1 } := by
  simp only [executeBody]
  repeat' split
  all_goals
    first
      | (left; rfl)
      | (right; simp only []; rw [request_sess])

/-- `request` on a connected session with the frames `msgs` arriving:
allocates `_id + 1`, writes the request frame carrying that id, and awaits
the matching reply. -/
theorem request_frames (sess : LSPClientSession) (hconn : sess.sockConnected = true)
    (w : Wire) (m : List Char) (p : Json) (msgs : List Json)
    (hobj : ∀ x ∈ msgs, x.isObj = true) (hinp : w.inp = encodeFrames msgs) :
    sess.request w m p =
      { err := none,
        reply := (msgs.dropWhile (fun x => !idMatches x (sess._id + 1))).head?,
        sess := { sess with _id := sess._id + 1 },
        wire := { sent := w.sent ++ [encodeMsg m p (some (sess._id + 1))],
                  inp := encodeFrames (msgs.dropWhile (fun x => !idMatches x (sess._id + 1))).tail } } := by
  rw [LSPClientSession.request]
  simp only []
  rw [show LSPClientSession.sendMsg { sess with _id := sess._id + 1 } w m p
      (some (sess._id + 1)) =
      (none, { w with sent := w.sent ++ [encodeMsg m p (some (sess._id + 1))] }) from by
    simp [LSPClientSession.sendMsg, hconn]]
  simp only []
  rw [waitFor_frames (sess._id + 1) _ msgs hobj
    (by rw [show ({ w with sent := w.sent ++ [encodeMsg m p (some (sess._id + 1))] } : Wire).inp
        = w.inp from rfl, hinp])]

/-- A missing target file makes `executeBody` return the not-found error
immediately: the session and the socket are untouched. -/
theorem executeBody_missing_file (sess : LSPClientSession) (env : Env) (w : Wire)
    (fp act : List Char) (l c : Int) (hmiss : env.fileExists = false) :
    executeBody sess env w fp act l c =
      { result := .error ("File does not exist: ".data ++ fp),
        session := some sess, wire := w } := by
  rw [executeBody, if_pos (by simp [hmiss])]

/-- An unsupported action makes `executeBody` fail after the `didOpen`
notification: no request id is allocated and no id-carrying frame is
written. -/
theorem executeBody_unsupported (sess : LSPClientSession) (env : Env) (w : Wire)
    (fp act : List Char) (l c : Int)
    (hconn : sess.sockConnected = true) (hfile : env.fileExists = true)
    (h1 : act ≠ "hover".data) (h2 : act ≠ "definition".data) :
    executeBody sess env w fp act l c =
      { result := .error ("Unsupported action: ".data ++ act),
        session := some sess,
        wire := { w with sent := w.sent ++ [encodeMsg "textDocument/didOpen".data
          (didOpenParams ("file://".data ++ fp) env.fileContent) none] } } := by
  rw [executeBody, if_neg (by simp [hfile])]
  simp only []
  rw [show LSPClientSession.sendMsg sess w "textDocument/didOpen".data
      (didOpenParams ("file://".data ++ fp) env.fileContent) none =
      (none, { w with sent := w.sent ++ [encodeMsg "textDocument/didOpen".data
        (didOpenParams ("file://".data ++ fp) env.fileContent) none] }) from by
    simp [LSPClientSession.sendMsg, hconn]]
  simp only []
  rw [if_neg h1, if_neg h2]

/-- `start` on a quiet wire (no incoming data before the timeout):
connects, sends `initialize` (with no id) and `initialized`, and treats
the missed reply as the `None` sentinel. -/
theorem start_quiet (sess : LSPClientSession) (sent0 : List (List Char)) (cwd : List Char) :
    sess.start { sent := sent0, inp := [] } true cwd =
      { err := none,
        sess := { sess with sockConnected := true, _id := 1 },
        wire := { sent := sent0 ++ [encodeMsg "initialize".data (initParams cwd) none]
                    ++ [encodeMsg "initialized".data (Json.obj []) none],
                  inp := [] },
        reply := none } := rfl

/-- Every id handed out by `request` exceeds the counter the session
started from. -/
theorem runRequests_gt :
    ∀ (reqs : List (List Char × Json)) (sess : LSPClientSession) (w : Wire),
      ∀ i ∈ runRequests sess w reqs, sess._id < i := by
  intro reqs
  induction reqs with
  | nil => intro sess w i hi; simp [runRequests] at hi
  | cons r rs ih =>
    intro sess w i hi
    obtain ⟨m, p⟩ := r
    rw [runRequests] at hi
    simp only [List.mem_cons] at hi
    have hid : (sess.request w m p).sess._id = sess._id + 1 := by rw [request_sess]
    rcases hi with rfl | hi
    · omega
    · have := ih (sess.request w m p).sess (sess.request w m p).wire i hi
      omega

/-! ## Claim theorems -/

/-- C1 (code bug exhibit): when the server never replies (no bytes arrive
before the timeout), `execute` does terminate, but instead of the
empty-result payload the claim describes, it returns the error payload
produced by the blanket handler catching the `AttributeError` that
`result.get("result", {})` raises on the `None` sentinel
(`"LSP tool error: 'NoneType' object has no attribute 'get'"`). -/
theorem C1_timeout_attribute_error :
    (execute none
      { connectOk := true, fileExists := true, fileContent := "x = 1".data, cwd := "/app".data }
      { sent := [], inp := [] } "/app/m.py".data "hover".data 15 22).result =
      .error ("LSP tool error: ".data ++ pyErrMsg (.attrGet "NoneType".data)) := by
  decide

/-- C2 (code bug exhibit): the first frame `start` sends is the
`initialize` message, but `_send` is called without an id, so the encoded
initialize frame carries no `id` field at all (decoding it yields a
payload whose `"id"` lookup is `None`) — it is not a Request with id 1,
even though the code then waits for a reply to id 1. -/
theorem C2_initialize_frame_has_no_id :
    (LSPClientSession.new.start { sent := [], inp := [] } true "/app".data).wire.sent.head? =
      some (encodeMsg "initialize".data (initParams "/app".data) none) ∧
    decodeFrame (encodeMsg "initialize".data (initParams "/app".data) none) =
      .frame (sendPayload "initialize".data (initParams "/app".data) none) [] ∧
    (sendPayload "initialize".data (initParams "/app".data) none).get? "id".data = none := by
  refine ⟨by decide, ?_, rfl⟩
  have h := decodeFrame_encode (jdump (sendPayload "initialize".data (initParams "/app".data) none))
    (sendPayload "initialize".data (initParams "/app".data) none)
    (jsonLoads_jdump _) []
  rw [List.append_nil] at h
  exact h

/-- C3 (counterexample): a dispatch against a nonexistent file with no
already-established session does open a connection as a side effect —
`execute` establishes the session (connecting and performing the
handshake, two frames written) before the existence check, and only then
returns the not-found error. -/
theorem C3_counterexample_connection_opened :
    (execute none
      { connectOk := true, fileExists := false, fileContent := [], cwd := "/app".data }
      { sent := [], inp := [] } "x.py".data "hover".data 0 0).result =
      .error ("File does not exist: x.py".data) ∧
    (execute none
      { connectOk := true, fileExists := false, fileContent := [], cwd := "/app".data }
      { sent := [], inp := [] } "x.py".data "hover".data 0 0).wire.sent.length = 2 ∧
    (execute none
      { connectOk := true, fileExists := false, fileContent := [], cwd := "/app".data }
      { sent := [], inp := [] } "x.py".data "hover".data 0 0).session =
      some { host := "127.0.0.1".data, port := 2087, sockConnected := true, _id := 1 } := by
  refine ⟨by decide, by decide, by decide⟩

/-- C3 (amended): `execute` on a missing file returns the file-not-found
error; when a session already exists nothing else happens (session and
socket unchanged, no frame written), but when no session exists the
session is first established — connection opened and the two handshake
frames written — before the file check. -/
theorem C3_missing_file_error (env : Env) (w : Wire) (fp act : List Char) (l c : Int)
    (hmiss : env.fileExists = false) :
    (∀ sess : LSPClientSession,
      execute (some sess) env w fp act l c =
        { result := .error ("File does not exist: ".data ++ fp),
          session := some sess, wire := w }) ∧
    (env.connectOk = true →
      ∀ sent0 : List (List Char),
        execute none env { sent := sent0, inp := [] } fp act l c =
          { result := .error ("File does not exist: ".data ++ fp),
            session := some { host := "127.0.0.1".data, port := 2087,
                              sockConnected := true, _id := 1 },
            wire := { sent := sent0 ++ [encodeMsg "initialize".data (initParams env.cwd) none]
                        ++ [encodeMsg "initialized".data (Json.obj []) none],
                      inp := [] } }) := by
  constructor
  · intro sess
    exact executeBody_missing_file sess env w fp act l c hmiss
  · intro hconn sent0
    rw [execute]
    rw [show LSPClientSession.new.start { sent := sent0, inp := [] } env.connectOk env.cwd =
        LSPClientSession.new.start { sent := sent0, inp := [] } true env.cwd from by rw [hconn]]
    rw [start_quiet]
    simp only []
    exact executeBody_missing_file _ env _ fp act l c hmiss

/-- C3 witness: the amended statement at a concrete pre-established
session and a concrete missing-file environment. -/
theorem C3_missing_file_error_witness :
    execute (some { host := "127.0.0.1".data, port := 2087, sockConnected := true, _id := 1 })
      { connectOk := true, fileExists := false, fileContent := [], cwd := "/app".data }
      { sent := [], inp := [] } "x.py".data "hover".data 0 0 =
      { result := .error ("File does not exist: ".data ++ "x.py".data),
        session := some { host := "127.0.0.1".data, port := 2087,
                          sockConnected := true, _id := 1 },
        wire := { sent := [], inp := [] } } :=
  (C3_missing_file_error
    { connectOk := true, fileExists := false, fileContent := [], cwd := "/app".data }
    { sent := [], inp := [] } "x.py".data "hover".data 0 0 rfl).1
    { host := "127.0.0.1".data, port := 2087, sockConnected := true, _id := 1 }

/-- C5: framing round-trip — decoding the frame `_send` encodes for a
Request reproduces the payload exactly, and in particular its `id`,
`method` and `params` members are the originals, for every method, params
and id. -/
theorem C5_frame_roundtrip (method : List Char) (params : Json) (id : Int) :
    decodeFrame (encodeMsg method params (some id)) =
      .frame (sendPayload method params (some id)) [] ∧
    (sendPayload method params (some id)).get? "id".data = some (.num id) ∧
    (sendPayload method params (some id)).get? "method".data = some (.str method) ∧
    (sendPayload method params (some id)).get? "params".data = some params := by
  refine ⟨?_, rfl, rfl, rfl⟩
  have h := decodeFrame_encode (jdump (sendPayload method params (some id)))
    (sendPayload method params (some id)) (jsonLoads_jdump _) []
  rw [List.append_nil] at h
  exact h

/-- C8: the ids allocated by successive `request` calls are strictly
increasing across the session's lifetime, and each exceeds the counter
value the session started from. -/
theorem C8_request_ids_strictly_increasing (sess : LSPClientSession) (w : Wire)
    (reqs : List (List Char × Json)) :
    (runRequests sess w reqs).Pairwise (· < ·) ∧
    ∀ i ∈ runRequests sess w reqs, sess._id < i := by
  refine ⟨?_, runRequests_gt reqs sess w⟩
  induction reqs generalizing sess w with
  | nil => simp [runRequests]
  | cons r rs ih =>
    obtain ⟨m, p⟩ := r
    rw [runRequests]
    refine List.Pairwise.cons ?_ (ih _ _)
    intro i hi
    have h1 := runRequests_gt rs (sess.request w m p).sess (sess.request w m p).wire i hi
    omega

/-- C4: given any awaited id and any incoming sequence of frames (LSP
messages are dicts), `_wait_for` skips every message whose id does not
match — Notifications without id included — without requeuing them,
returns the first message whose id matches, and returns the `None`
sentinel (never raising) when no frame matches before the input is
exhausted. -/
theorem C4_waitFor_id_matching (target : Int) (w : Wire) (msgs : List Json)
    (hobj : ∀ m ∈ msgs, m.isObj = true) (hinp : w.inp = encodeFrames msgs) :
    LSPClientSession.waitFor target w =
      (.ok (msgs.dropWhile (fun m => !idMatches m target)).head?,
       { w with inp := encodeFrames (msgs.dropWhile (fun m => !idMatches m target)).tail }) ∧
    ∀ m ∈ (msgs.dropWhile (fun m => !idMatches m target)).head?, idMatches m target = true := by
  refine ⟨waitFor_frames target w msgs hobj hinp, ?_⟩
  intro m hm
  have h := dropWhile_head_false (fun m => !idMatches m target) msgs m hm
  simpa using h

/-- C4 witness: awaiting id 2 against a Notification, a non-matching
Response and the matching Response. -/
theorem C4_waitFor_id_matching_witness :
    (LSPClientSession.waitFor 2 { sent := [], inp := encodeFrames demoFrames } =
      (.ok (demoFrames.dropWhile (fun m => !idMatches m 2)).head?,
       { sent := [], inp := encodeFrames (demoFrames.dropWhile (fun m => !idMatches m 2)).tail }) ∧
     ∀ m ∈ (demoFrames.dropWhile (fun m => !idMatches m 2)).head?, idMatches m 2 = true) :=
  C4_waitFor_id_matching 2 { sent := [], inp := encodeFrames demoFrames } demoFrames
    (by decide) rfl

/-- C6 (counterexample): in a complete handshake run the session sends
exactly two frames — `initialize` then `initialized` — and neither frame's
payload carries any id, so no "initialize request with id 1" is ever
dispatched even though `initialized` is sent; the claim as stated (which
requires an initialize request with id 1 to precede `initialized`) fails
on the code. -/
theorem C6_counterexample_no_id1_request :
    (LSPClientSession.new.start { sent := [], inp := [] } true "/app".data).wire.sent =
      [encodeMsg "initialize".data (initParams "/app".data) none,
       encodeMsg "initialized".data (Json.obj []) none] ∧
    (sendPayload "initialize".data (initParams "/app".data) none).get? "id".data = none ∧
    (sendPayload "initialized".data (Json.obj []) none).get? "id".data = none :=
  ⟨rfl, rfl, rfl⟩

/-- C6 (amended): the `initialized` notification is never sent before the
initialize message (sent without an id, see C2) has been dispatched and
its reply awaited: whenever the wait completes with `.ok r` — matched
(`r = some …`) or timed out (`r = none`) — `start` writes exactly
`initialize` followed by `initialized`, in that order, and does not fail. -/
theorem C6_handshake_order (sess : LSPClientSession) (w : Wire) (cwd : List Char)
    (r : Option Json)
    (hw : (LSPClientSession.waitFor 1
        { w with sent := w.sent ++ [encodeMsg "initialize".data (initParams cwd) none] }).1 =
      .ok r) :
    (sess.start w true cwd).err = none ∧
    (sess.start w true cwd).reply = r ∧
    (sess.start w true cwd).wire.sent =
      w.sent ++ [encodeMsg "initialize".data (initParams cwd) none,
                 encodeMsg "initialized".data (Json.obj []) none] := by
  rw [LSPClientSession.start, if_pos rfl]
  simp only []
  rw [show LSPClientSession.sendMsg { sess with sockConnected := true, _id := 1 } w
      "initialize".data (initParams cwd) none =
      (none, { w with sent := w.sent ++ [encodeMsg "initialize".data (initParams cwd) none] })
    from by simp [LSPClientSession.sendMsg]]
  simp only []
  rcases hpair : LSPClientSession.waitFor 1
      { w with sent := w.sent ++ [encodeMsg "initialize".data (initParams cwd) none] }
    with ⟨res, w2⟩
  have hres : res = .ok r := by rw [hpair] at hw; exact hw
  subst hres
  simp only []
  rw [show LSPClientSession.sendMsg { sess with sockConnected := true, _id := 1 } w2
      "initialized".data (Json.obj []) none =
      (none, { w2 with sent := w2.sent ++ [encodeMsg "initialized".data (Json.obj []) none] })
    from by simp [LSPClientSession.sendMsg]]
  simp only []
  refine ⟨trivial, trivial, ?_⟩
  have hs2 : w2.sent = w.sent ++ [encodeMsg "initialize".data (initParams cwd) none] := by
    have h := waitFor_sent 1
      { w with sent := w.sent ++ [encodeMsg "initialize".data (initParams cwd) none] }
    rw [hpair] at h
    exact h
  show w2.sent ++ [encodeMsg "initialized".data (Json.obj []) none] = _
  rw [hs2, List.append_assoc]
  rfl

/-- C6 witness: the amended statement on a quiet wire (the initialize
reply times out, `r = none`), with a concrete session. -/
theorem C6_handshake_order_witness :
    (LSPClientSession.new.start { sent := [], inp := [] } true "/app".data).err = none ∧
    (LSPClientSession.new.start { sent := [], inp := [] } true "/app".data).reply = none ∧
    (LSPClientSession.new.start { sent := [], inp := [] } true "/app".data).wire.sent =
      [] ++ [encodeMsg "initialize".data (initParams "/app".data) none,
             encodeMsg "initialized".data (Json.obj []) none] :=
  C6_handshake_order LSPClientSession.new { sent := [], inp := [] } "/app".data none rfl

/-- C7: a dispatch whose action is neither `"hover"` nor `"definition"`
fails with the unsupported-action error and never reaches the correlation
engine: the session (and so its id counter) is unchanged, and the only
frame written is the `didOpen` notification, whose payload carries no id. -/
theorem C7_unsupported_action (sess : LSPClientSession) (env : Env) (w : Wire)
    (fp act : List Char) (l c : Int)
    (hconn : sess.sockConnected = true) (hfile : env.fileExists = true)
    (h1 : act ≠ "hover".data) (h2 : act ≠ "definition".data) :
    execute (some sess) env w fp act l c =
      { result := .error ("Unsupported action: ".data ++ act),
        session := some sess,
        wire := { w with sent := w.sent ++ [encodeMsg "textDocument/didOpen".data
          (didOpenParams ("file://".data ++ fp) env.fileContent) none] } } ∧
    (sendPayload "textDocument/didOpen".data
        (didOpenParams ("file://".data ++ fp) env.fileContent) none).get? "id".data = none :=
  ⟨executeBody_unsupported sess env w fp act l c hconn hfile h1 h2, rfl⟩

/-- C7 witness: a `"rename"` dispatch on a connected session. -/
theorem C7_unsupported_action_witness :
    execute (some { host := "127.0.0.1".data, port := 2087, sockConnected := true, _id := 1 })
      { connectOk := true, fileExists := true, fileContent := "pass".data, cwd := "/app".data }
      { sent := [], inp := [] } "m.py".data "rename".data 0 0 =
      { result := .error ("Unsupported action: ".data ++ "rename".data),
        session := some { host := "127.0.0.1".data, port := 2087,
                          sockConnected := true, _id := 1 },
        wire := { sent := [] ++ [encodeMsg "textDocument/didOpen".data
          (didOpenParams ("file://".data ++ "m.py".data) "pass".data) none], inp := [] } } ∧
    (sendPayload "textDocument/didOpen".data
        (didOpenParams ("file://".data ++ "m.py".data) "pass".data) none).get? "id".data = none :=
  C7_unsupported_action
    { host := "127.0.0.1".data, port := 2087, sockConnected := true, _id := 1 }
    { connectOk := true, fileExists := true, fileContent := "pass".data, cwd := "/app".data }
    { sent := [], inp := [] } "m.py".data "rename".data 0 0 rfl rfl (by decide) (by decide)

/-- C9: no path of `execute` — error paths included — clears or rebuilds
the `_session` field: with a pre-established session the field afterwards
holds that same session object (at most its id counter advanced by the
one `request` the call made), and with no pre-established session the
field afterwards always holds a session (never `None` again); there is no
closed state and no reconnection. -/
theorem C9_session_preserved (env : Env) (w : Wire) (fp act : List Char) (l c : Int) :
    (∀ sess : LSPClientSession,
      (execute (some sess) env w fp act l c).session = some sess ∨
      (execute (some sess) env w fp act l c).session =
        some { sess with _id := sess._id + 1 }) ∧
    ((execute none env w fp act l c).session).isSome = true := by
  constructor
  · intro sess
    exact executeBody_session sess env w fp act l c
  · rw [execute]
    split
    · rfl
    · rcases executeBody_session (LSPClientSession.new.start w env.connectOk env.cwd).sess env
        (LSPClientSession.new.start w env.connectOk env.cwd).wire fp act l c with h | h <;>
        rw [h] <;> rfl

/-- C10: when the matching Response carries an `error` member and no
`result` member, `execute` does not surface the LSP error: it returns the
success payload rendering the empty structure, `"{}"`
(`json.dumps(result.get("result", {}), indent=2)` with the default
kicking in). -/
theorem C10_error_reply_renders_empty (sess : LSPClientSession)
    (hconn : sess.sockConnected = true)
    (sent0 : List (List Char)) (errVal : Json) (co : Bool)
    (content cwd fp : List Char) (l ch : Int) :
    (execute (some sess)
      { connectOk := co, fileExists := true, fileContent := content, cwd := cwd }
      { sent := sent0,
        inp := encodeFrames
          [Json.obj [("id".data, Json.num (sess._id + 1)), ("error".data, errVal)]] }
      fp "hover".data l ch).result = .output "{}".data := by
  rw [show execute (some sess)
      { connectOk := co, fileExists := true, fileContent := content, cwd := cwd }
      { sent := sent0,
        inp := encodeFrames
          [Json.obj [("id".data, Json.num (sess._id + 1)), ("error".data, errVal)]] }
      fp "hover".data l ch =
    executeBody sess
      { connectOk := co, fileExists := true, fileContent := content, cwd := cwd }
      { sent := sent0,
        inp := encodeFrames
          [Json.obj [("id".data, Json.num (sess._id + 1)), ("error".data, errVal)]] }
      fp "hover".data l ch from rfl]
  rw [executeBody, if_neg (by simp)]
  simp only []
  rw [show LSPClientSession.sendMsg sess
      { sent := sent0,
        inp := encodeFrames
          [Json.obj [("id".data, Json.num (sess._id + 1)), ("error".data, errVal)]] }
      "textDocument/didOpen".data (didOpenParams ("file://".data ++ fp) content) none =
      (none,
       { sent := sent0 ++ [encodeMsg "textDocument/didOpen".data
           (didOpenParams ("file://".data ++ fp) content) none],
         inp := encodeFrames
           [Json.obj [("id".data, Json.num (sess._id + 1)), ("error".data, errVal)]] }) from by
    simp [LSPClientSession.sendMsg, hconn]]
  simp only [if_true]
  rw [request_frames sess hconn _ "textDocument/hover".data
      (queryParams ("file://".data ++ fp) l ch)
      [Json.obj [("id".data, Json.num (sess._id + 1)), ("error".data, errVal)]]
      (by intro x hx; rw [List.mem_singleton] at hx; subst hx; rfl) rfl]
  simp only []
  have hm : idMatches (Json.obj [("id".data, Json.num (sess._id + 1)), ("error".data, errVal)])
      (sess._id + 1) = true := by
    simp [idMatches, jlookup]
  rw [show ([Json.obj [("id".data, Json.num (sess._id + 1)), ("error".data, errVal)]].dropWhile
      (fun x => !idMatches x (sess._id + 1))) =
      [Json.obj [("id".data, Json.num (sess._id + 1)), ("error".data, errVal)]] from by
    simp [List.dropWhile_cons, hm]]
  simp only [List.head?_cons]
  rw [show renderReply
      (some (Json.obj [("id".data, Json.num (sess._id + 1)), ("error".data, errVal)])) =
      .ok (.output "{}".data) from rfl]

/-- C10 witness: a concrete connected session and a concrete LSP error
object. -/
theorem C10_error_reply_renders_empty_witness :
    (execute (some { host := "127.0.0.1".data, port := 2087, sockConnected := true, _id := 1 })
      { connectOk := true, fileExists := true, fileContent := "pass".data, cwd := "/app".data }
      { sent := [],
        inp := encodeFrames
          [Json.obj [("id".data, Json.num (1 + 1)),
                     ("error".data, Json.obj [("code".data, Json.num (-32601))])]] }
      "m.py".data "hover".data 3 7).result = .output "{}".data :=
  C10_error_reply_renders_empty
    { host := "127.0.0.1".data, port := 2087, sockConnected := true, _id := 1 } rfl
    [] (Json.obj [("code".data, Json.num (-32601))]) true "pass".data "/app".data "m.py".data 3 7

end PyLSP
